import Mathlib

set_option linter.unusedVariables false

/-!
Verification of the WasmEdge executor header (`include/executor/executor.h`)
against its natural-language specification.  The repository under inspection
ships only the header: the class layout, the inline member functions
(`HostFuncHandler`, the `Executor` constructor, `Executor::stop`) and the
declarations of the interpreter operations.  Inline code is embedded directly
from the source; operations whose bodies live in the `engine/*.ipp` files
(which are not part of the repository snapshot) are modelled from the
specification text and are marked as such in their doc comments.
-/

namespace WasmEdge

/-- Trap codes used by the operations under verification, from the spec's trap
taxonomy (`common/errcode.h` is outside the snapshot). -/
inductive ErrCode where
  | IntegerDivByZero
  | IntegerOverflow
  | OutOfBoundsMemAccess
  | TableOutOfMaxLimit
  deriving DecidableEq, Repr

/-! ## Integer division and remainder (claim C1) -/

/-- The minimum signed integer of width `w` (two's complement). -/
def intMin (w : Nat) : Int := -(2 ^ (w - 1))

/-- Modelled from the spec: `runDivOp` for a signed integer type of width `w`
(the body is in `engine/binary_numeric.ipp`, which is missing from the
snapshot).  Division by zero traps with `IntegerDivByZero`; `INT_MIN / -1`
traps with `IntegerOverflow`; otherwise the result is the truncated
quotient. -/
def runDivOpSigned (w : Nat) (v1 v2 : Int) : Except ErrCode Int :=
  if v2 = 0 then .error .IntegerDivByZero
  else if v1 = intMin w ∧ v2 = -1 then .error .IntegerOverflow
  else .ok (Int.tdiv v1 v2)

/-- Modelled from the spec: `runDivOp` for an unsigned integer type.  Division
by zero traps; otherwise the result is the quotient. -/
def runDivOpUnsigned (v1 v2 : Nat) : Except ErrCode Nat :=
  if v2 = 0 then .error .IntegerDivByZero
  else .ok (v1 / v2)

/-- Modelled from the spec: `runRemOp` for a signed integer type (body in
`engine/binary_numeric.ipp`, missing from the snapshot).  Remainder by zero
traps; otherwise the result is the truncated remainder, so in particular
`INT_MIN tmod -1 = 0` without a trap. -/
def runRemOpSigned (v1 v2 : Int) : Except ErrCode Int :=
  if v2 = 0 then .error .IntegerDivByZero
  else .ok (Int.tmod v1 v2)

/-- Modelled from the spec: `runRemOp` for an unsigned integer type. -/
def runRemOpUnsigned (v1 v2 : Nat) : Except ErrCode Nat :=
  if v2 = 0 then .error .IntegerDivByZero
  else .ok (v1 % v2)

/-! ## Host function handler (claim C5)

`HostFuncHandler` is fully inline in the header (lines 96-125).  Each member
function is embedded as the sequence of lock operations and field accesses it
performs, read off the source line by line. -/

/-- Operations on the `std::shared_mutex Mutex` member. -/
inductive LockOp where
  | acquireUnique
  | releaseUnique
  | acquireShared
  | releaseShared
  deriving DecidableEq, Repr

/-- The four data members of `HostFuncHandler` guarded by the mutex. -/
inductive HFField where
  | preHostData
  | preHostFunc
  | postHostData
  | postHostFunc
  deriving DecidableEq, Repr

/-- One step performed by a `HostFuncHandler` member function. -/
inductive HFEvent where
  | lockMutex (op : LockOp)
  | writeField (f : HFField)
  | readField (f : HFField)
  | callHook (f : HFField)
  deriving DecidableEq, Repr

/-- `HostFuncHandler::setPreHost` (header lines 98-102): construct a
`std::unique_lock` on `Mutex` (exclusive acquisition), store `PreHostData`
and `PreHostFunc`, release at scope exit. -/
def setPreHostTrace : List HFEvent :=
  [.lockMutex .acquireUnique, .writeField .preHostData,
   .writeField .preHostFunc, .lockMutex .releaseUnique]

/-- `HostFuncHandler::setPostHost` (header lines 103-107): same shape for the
post-hook pair. -/
def setPostHostTrace : List HFEvent :=
  [.lockMutex .acquireUnique, .writeField .postHostData,
   .writeField .postHostFunc, .lockMutex .releaseUnique]

/-- `HostFuncHandler::invokePreHostFunc` (header lines 108-112): test
`PreHostFunc.operator bool()` and, when a hook is registered (`isSet`), call
`PreHostFunc(PreHostData)`.  The body contains no lock construction. -/
def invokePreHostFuncTrace (isSet : Bool) : List HFEvent :=
  if isSet then
    [.readField .preHostFunc, .readField .preHostData, .callHook .preHostFunc]
  else
    [.readField .preHostFunc]

/-- `HostFuncHandler::invokePostHostFunc` (header lines 113-117): symmetric to
the pre-hook invocation; again no lock construction appears in the body. -/
def invokePostHostFuncTrace (isSet : Bool) : List HFEvent :=
  if isSet then
    [.readField .postHostFunc, .readField .postHostData, .callHook .postHostFunc]
  else
    [.readField .postHostFunc]

/-- The lock operations performed by a trace, in order. -/
def locksOf (t : List HFEvent) : List LockOp :=
  t.filterMap fun e =>
    match e with
    | .lockMutex op => some op
    | _ => none

/-! ## Executor constructor (claim C10)

`Executor::Executor` is inline in the header (lines 130-142). -/

/-- The statistics-related part of `Configure` consumed by the constructor. -/
structure StatisticsConfigure where
  instructionCounting : Bool
  costMeasuring : Bool
  timeMeasuring : Bool
  costLimit : Nat
  deriving DecidableEq, Repr

/-- The configuration object; only the statistics configure is read by the
constructor. -/
structure Configure where
  statisticsConf : StatisticsConfigure
  deriving DecidableEq, Repr

/-- A statistics object; `costLimit` is the field written by `setCostLimit`
and `instrCount` stands for the rest of its state. -/
structure Statistics where
  costLimit : Nat
  instrCount : Nat
  deriving DecidableEq, Repr

/-- `Statistics::setCostLimit`. -/
def setCostLimit (st : Statistics) (lim : Nat) : Statistics :=
  { st with costLimit := lim }

/-- The state established by the `Executor` constructor: the stored
configuration and the attached statistics object (`none` models the null
pointer). -/
structure ExecutorInit where
  conf : Configure
  stat : Option Statistics
  deriving DecidableEq, Repr

/-- Whether any of the three statistics switches is enabled. -/
def statEnabled (conf : Configure) : Bool :=
  conf.statisticsConf.instructionCounting || conf.statisticsConf.costMeasuring ||
    conf.statisticsConf.timeMeasuring

/-- `Executor::Executor(Conf, S)` (header lines 130-142): attach `S` as `Stat`
only when instruction counting, cost measuring, or time measuring is enabled,
otherwise set `Stat` to null; then, if `Stat` is non-null, call
`Stat->setCostLimit(Conf.getStatisticsConfigure().getCostLimit())`. -/
def mkExecutor (conf : Configure) (s : Option Statistics) : ExecutorInit :=
  let stat0 := if statEnabled conf then s else none
  { conf := conf
    stat := stat0.map fun st => setCostLimit st conf.statisticsConf.costLimit }

/-! ## Bulk memory operations (claim C2)

The bodies of `runMemoryCopyOp`, `runMemoryFillOp` and `runMemoryInitOp` are
in `engine/memory.ipp`, which is missing from the snapshot; the operations are
modelled from the spec as straight-line programs over the destination memory:
first the bounds checks, then the byte writes.  A memory is its list of
bytes.  Running a program threads the memory through the actions and stops at
the first failed check, returning the memory as it stands at that point, so a
partial mutation before a trap would be visible in the result. -/

/-- One primitive step of a bulk memory operation. -/
inductive MemAction where
  | boundsCheck (ok : Bool)
  | writeByte (addr val : Nat)
  deriving DecidableEq, Repr

/-- Run a list of memory actions over a byte list.  A failed check aborts with
`OutOfBoundsMemAccess` and returns the memory at the abort point. -/
def runMemActions : List MemAction → List Nat → Option ErrCode × List Nat
  | [], m => (none, m)
  | .boundsCheck ok :: rest, m =>
      if ok then runMemActions rest m else (some .OutOfBoundsMemAccess, m)
  | .writeByte a v :: rest, m => runMemActions rest (m.set a v)

/-- The write actions storing `bytes` starting at offset `off`. -/
def writeBytesActions (off : Nat) (bytes : List Nat) : List MemAction :=
  (List.range bytes.length).map fun i => .writeByte (off + i) (bytes.getD i 0)

/-- Modelled from the spec: `runMemoryCopyOp` validates the source range and
the destination range, then copies the bytes; the source memory is only
read. -/
def memoryCopyProgram (dst src : List Nat) (dstOff srcOff len : Nat) :
    List MemAction :=
  [.boundsCheck (decide (srcOff + len ≤ src.length)),
   .boundsCheck (decide (dstOff + len ≤ dst.length))] ++
    writeBytesActions dstOff ((src.drop srcOff).take len)

/-- Modelled from the spec: `runMemoryFillOp` validates the destination range,
then stores `len` copies of the byte `val`. -/
def memoryFillProgram (dst : List Nat) (dstOff val len : Nat) :
    List MemAction :=
  [.boundsCheck (decide (dstOff + len ≤ dst.length))] ++
    writeBytesActions dstOff (List.replicate len val)

/-- Modelled from the spec: `runMemoryInitOp` validates the range in the data
segment and the destination range, then copies from the segment. -/
def memoryInitProgram (dst data : List Nat) (dstOff srcOff len : Nat) :
    List MemAction :=
  [.boundsCheck (decide (srcOff + len ≤ data.length)),
   .boundsCheck (decide (dstOff + len ≤ dst.length))] ++
    writeBytesActions dstOff ((data.drop srcOff).take len)

/-- `memory.copy` as the execution of its program over the destination. -/
def runMemoryCopyOp (dst src : List Nat) (dstOff srcOff len : Nat) :
    Option ErrCode × List Nat :=
  runMemActions (memoryCopyProgram dst src dstOff srcOff len) dst

/-- `memory.fill` as the execution of its program over the destination. -/
def runMemoryFillOp (dst : List Nat) (dstOff val len : Nat) :
    Option ErrCode × List Nat :=
  runMemActions (memoryFillProgram dst dstOff val len) dst

/-- `memory.init` as the execution of its program over the destination. -/
def runMemoryInitOp (dst data : List Nat) (dstOff srcOff len : Nat) :
    Option ErrCode × List Nat :=
  runMemActions (memoryInitProgram dst data dstOff srcOff len) dst

/-- Write-only action lists never trap. -/
theorem runMemActions_writes_fst (off : Nat) (bytes : List Nat) :
    ∀ m, (runMemActions (writeBytesActions off bytes) m).1 = none := by
  suffices h : ∀ l : List (Nat × Nat),
      (∀ m, (runMemActions (l.map fun p => MemAction.writeByte p.1 p.2) m).1
        = none) by
    intro m
    have := h (((List.range bytes.length).map
      fun i => (off + i, bytes.getD i 0)))
    simpa [writeBytesActions, List.map_map, Function.comp] using this m
  intro l
  induction l with
  | nil => intro m; rfl
  | cons p rest ih => intro m; simpa [runMemActions] using ih (m.set p.1 p.2)

/-- A program of checks followed by non-trapping actions leaves the memory
untouched whenever it traps. -/
theorem runMemActions_checks_then_writes (checks : List Bool)
    (writes : List MemAction)
    (hw : ∀ m, (runMemActions writes m).1 = none) :
    ∀ m, (runMemActions (checks.map MemAction.boundsCheck ++ writes) m).1.isSome
        = true →
      (runMemActions (checks.map MemAction.boundsCheck ++ writes) m).2 = m := by
  induction checks with
  | nil =>
      intro m hm
      simp only [List.map_nil, List.nil_append] at hm
      rw [hw m] at hm
      simp at hm
  | cons c rest ih =>
      intro m hm
      by_cases hc : c = true
      · subst hc
        simpa [runMemActions] using ih m (by simpa [runMemActions] using hm)
      · have hc' : c = false := by simpa using hc
        subst hc'
        simp [runMemActions]

/-! ## Atomic wait (claim C3)

`Executor::atomicWait` is declared in the header (lines 402-405) with its body
in `engine/atomic.ipp`, missing from the snapshot; it is modelled from the
spec.  The blocking rendezvous is resolved by a `WakeOutcome` oracle saying
how the wait ended; a negative timeout (wait indefinitely) makes the timeout
outcome impossible, which `wakeOutcomePossible` records. -/

/-- How a blocking wait ended: woken by a `notify`, or by timeout expiry. -/
inductive WakeOutcome where
  | notified
  | timedOut
  deriving DecidableEq, Repr

/-- The result of `atomicWait`: the returned code and whether the call
blocked. -/
structure AtomicWaitResult where
  retVal : Nat
  blocked : Bool
  deriving DecidableEq, Repr

/-- Whether an outcome can occur under the given timeout: a timeout expiry
requires a non-negative timeout, since `timeout_ns < 0` means wait
indefinitely. -/
def wakeOutcomePossible (timeout : Int) : WakeOutcome → Bool
  | .notified => true
  | .timedOut => decide (0 ≤ timeout)

/-- Modelled from the spec: `atomicWait(mem, addr, expected, timeout)` loads
the cell at `addr`; if the loaded value differs from `expected` it returns 1
without blocking; otherwise it blocks and returns 0 when woken by a notify
and 2 when the timeout expires. -/
def atomicWait (mem : List Nat) (addr expected : Nat) (timeout : Int)
    (outcome : WakeOutcome) : AtomicWaitResult :=
  if mem.getD addr 0 ≠ expected then ⟨1, false⟩
  else
    match outcome with
    | .notified => ⟨0, true⟩
    | .timedOut => ⟨2, true⟩

/-! ## Table grow (claim C4)

`runTableGrowOp` is declared in the header (lines 615-616) with its body in
the executor sources missing from the snapshot; the growth discipline is
modelled from the spec. -/

/-- An opaque table element reference. -/
structure RefV where
  id : Nat
  deriving DecidableEq, Repr

/-- A table instance: its element slots and its maximum size in slots (a
table without a declared maximum uses the `u32` limit). -/
structure TableInstance where
  refs : List RefV
  maxSize : Nat
  deriving DecidableEq, Repr

/-- Modelled from the spec: `runTableGrowOp` appends `count` copies of `val`
and returns the previous size when the new size stays within the maximum;
otherwise it returns `0xFFFFFFFF` and leaves the table untouched. -/
def runTableGrowOp (tab : TableInstance) (val : RefV) (count : Nat) :
    Nat × TableInstance :=
  if tab.refs.length + count ≤ tab.maxSize then
    (tab.refs.length, { tab with refs := tab.refs ++ List.replicate count val })
  else
    (4294967295, tab)

/-! ## Atomic waiter map and notify (claims C6, C7)

The header declares the waiter storage (lines 1067-1077): a
`std::unordered_multimap<uint32_t, Waiter> WaiterMap` keyed by the address,
where each `Waiter` records the `MemoryInstance *MemInst` it waits on.  The
bodies of `atomicNotify` and `atomicNotifyAll` are in `engine/atomic.ipp`,
missing from the snapshot, and are modelled from the spec: `notify` wakes up
to `count` waiters on `(mem, addr)` and returns the number actually woken,
skipping waiters of other memory instances; `atomicNotifyAll` wakes every
waiter in the map. -/

/-- A registered waiter: the identity of the memory instance it waits on
(standing for the `MemoryInstance *` member) and whether it has been woken. -/
structure Waiter where
  memInst : Nat
  woken : Bool
  deriving DecidableEq, Repr

/-- The waiter multimap: entries of address key and waiter, in insertion
order. -/
abbrev WaiterMap := List (Nat × Waiter)

/-- Modelled from the spec: the traversal inside `atomicNotify`.  A waiter is
woken only when its key equals `addr`, its memory instance is `mem`, and the
remaining wake budget is positive; the pair of the number woken and the
updated map is returned. -/
def atomicNotifyGo (mem addr : Nat) : WaiterMap → Nat → Nat × WaiterMap
  | [], _ => (0, [])
  | (a, w) :: rest, count =>
    if a = addr ∧ w.memInst = mem ∧ 0 < count then
      ((atomicNotifyGo mem addr rest (count - 1)).1 + 1,
        (a, { w with woken := true }) :: (atomicNotifyGo mem addr rest (count - 1)).2)
    else
      ((atomicNotifyGo mem addr rest count).1,
        (a, w) :: (atomicNotifyGo mem addr rest count).2)

/-- Modelled from the spec: `atomicNotify(mem, addr, count)`. -/
def atomicNotify (wm : WaiterMap) (mem addr count : Nat) : Nat × WaiterMap :=
  atomicNotifyGo mem addr wm count

/-- The waiters of `wm` waiting on `(mem, addr)`. -/
def matchingWaiters (wm : WaiterMap) (mem addr : Nat) : WaiterMap :=
  wm.filter fun p => decide (p.1 = addr) && decide (p.2.memInst = mem)

/-- The executor state touched by `stop`: the `StopToken` value and the waiter
map. -/
structure ExecutorState where
  stopToken : Nat
  waiterMap : WaiterMap
  deriving DecidableEq, Repr

/-- Modelled from the spec: `atomicNotifyAll` wakes every waiter currently
registered in the waiter map. -/
def atomicNotifyAll (s : ExecutorState) : ExecutorState :=
  { s with waiterMap := s.waiterMap.map fun p => (p.1, { p.2 with woken := true }) }

/-- `Executor::stop` (header lines 202-205): store 1 into `StopToken`, then
call `atomicNotifyAll()`. -/
def stop (s : ExecutorState) : ExecutorState :=
  atomicNotifyAll { s with stopToken := 1 }

/-- Memory orderings appearing in the header. -/
inductive MemOrdering where
  | relaxed
  | seqCst
  deriving DecidableEq, Repr

/-- The observable events of `Executor::stop`. -/
inductive StopEvent where
  | storeStopToken (value : Nat) (ord : MemOrdering)
  | notifyAllWaiters
  deriving DecidableEq, Repr

/-- The event trace of `Executor::stop` as written in the header:
`StopToken.store(1, std::memory_order_relaxed)` followed by
`atomicNotifyAll()`. -/
def stopTrace : List StopEvent :=
  [.storeStopToken 1 .relaxed, .notifyAllWaiters]

/-! ## Reinterpret casts (claim C8)

`runReinterpretOp` is declared in the header (lines 721-722) under the
`TypeNN` constraint (lines 86-91): both types are built-in numeric types of
equal byte size.  Its body is in `engine/cast_numeric.ipp`, missing from the
snapshot, and is modelled from the spec: the operand's bit pattern is copied
unchanged into the target type. -/

/-- The four built-in numeric types. -/
inductive NumType where
  | i32
  | i64
  | f32
  | f64
  deriving DecidableEq, Repr

/-- The bit width of a numeric type. -/
def bitWidth : NumType → Nat
  | .i32 => 32
  | .i64 => 64
  | .f32 => 32
  | .f64 => 64

/-- Modelled from the spec: `runReinterpretOp` from `t` to `u` copies the bit
pattern, keeping the low `bitWidth u` bits of the payload. -/
def runReinterpretOp (t u : NumType) (x : Nat) : Nat :=
  x % 2 ^ bitWidth u

/-! ## Error-path stack trace (claim C9)

The header declares the thread-local `std::array<uint32_t, 256> StackTrace`
and `size_t StackTraceSize` (lines 1063-1065).  The recording code on the
error path is outside the snapshot and is modelled from the spec: the loop
short-circuits on error and records a frame (function index) up to a bounded
depth of 256 frames. -/

/-- Modelled from the spec: record one stack-trace frame; once the recorded
size reaches the 256-entry capacity, further frames are not recorded. -/
def recordStackTraceFrame (st : List Nat) (funcIdx : Nat) : List Nat :=
  if st.length < 256 then st ++ [funcIdx] else st

/-- Record the frames of an error-path call chain, outermost recording first,
starting from an empty trace. -/
def recordCallChain (chain : List Nat) : List Nat :=
  chain.foldl recordStackTraceFrame []

/-! ## Helper lemma for claim C9 -/

/-- Folding the frame recorder from any trace below capacity appends exactly
the frames that still fit. -/
theorem recordStackTraceFrame_foldl (chain : List Nat) :
    ∀ st : List Nat, st.length ≤ 256 →
      chain.foldl recordStackTraceFrame st = st ++ chain.take (256 - st.length) := by
  induction chain with
  | nil => intro st h; simp
  | cons c rest ih =>
    intro st h
    by_cases hlt : st.length < 256
    · rw [List.foldl_cons,
        show recordStackTraceFrame st c = st ++ [c] from if_pos hlt,
        ih (st ++ [c]) (by simp; omega),
        show 256 - st.length = (256 - (st ++ [c]).length) + 1 by simp; omega]
      simp [List.take_succ_cons, List.append_assoc]
    · have hz : 256 - st.length = 0 := by omega
      rw [List.foldl_cons,
        show recordStackTraceFrame st c = st from if_neg (by omega),
        ih st h, hz]
      simp

/-! ## Theorems for the claims -/

/-- Claim C1: for the integer division and remainder operations at every
integer width, division by zero traps, signed division of `INT_MIN` by `-1`
traps, remainder by zero traps, and signed remainder of `INT_MIN` by `-1`
returns 0 without trapping. -/
theorem c1_div_rem_trap_behavior (w : Nat) (v : Int) (x : Nat) :
    runDivOpSigned w v 0 = .error .IntegerDivByZero ∧
    runDivOpUnsigned x 0 = .error .IntegerDivByZero ∧
    runDivOpSigned w (intMin w) (-1) = .error .IntegerOverflow ∧
    runRemOpSigned v 0 = .error .IntegerDivByZero ∧
    runRemOpUnsigned x 0 = .error .IntegerDivByZero ∧
    runRemOpSigned (intMin w) (-1) = .ok 0 := by
  refine ⟨rfl, rfl, ?_, rfl, rfl, ?_⟩
  · simp [runDivOpSigned]
  · simp [runRemOpSigned, Int.tmod_neg, Int.tmod_one]

/-- Claim C5 counterexample: with a hook registered, the invocation paths of
the pre- and post-host hooks contain no shared-lock acquisition at all, so
the invocation does not take the read side of the `HostFuncHandler` lock. -/
theorem c5_invoke_no_shared_lock :
    HFEvent.lockMutex LockOp.acquireShared ∉ invokePreHostFuncTrace true ∧
    HFEvent.lockMutex LockOp.acquireShared ∉ invokePostHostFuncTrace true := by
  decide

/-- Claim C5 (amended): `setPreHost`/`setPostHost` serialize under the
exclusive side of the `HostFuncHandler` mutex, but `invokePreHostFunc` and
`invokePostHostFunc` read the `(data, fn)` pair and call the hook without
acquiring any side of the lock, whether or not a hook is registered. -/
theorem c5_setters_lock_invokers_do_not (isSet : Bool) :
    locksOf setPreHostTrace = [LockOp.acquireUnique, LockOp.releaseUnique] ∧
    locksOf setPostHostTrace = [LockOp.acquireUnique, LockOp.releaseUnique] ∧
    locksOf (invokePreHostFuncTrace isSet) = [] ∧
    locksOf (invokePostHostFuncTrace isSet) = [] := by
  cases isSet <;> decide

/-- Claim C10: the constructor attaches the supplied statistics object only
when instruction counting, cost measuring, or time measuring is enabled; with
none enabled the internal pointer is null even for a non-null argument; when
enabled the supplied object is attached with its cost limit set from the
configuration, and any attached object carries the configured cost limit. -/
theorem c10_constructor_statistics (conf : Configure) (s : Option Statistics) :
    (conf.statisticsConf.instructionCounting = false ∧
     conf.statisticsConf.costMeasuring = false ∧
     conf.statisticsConf.timeMeasuring = false →
       (mkExecutor conf s).stat = none) ∧
    (∀ st, s = some st → statEnabled conf = true →
       (mkExecutor conf s).stat =
         some (setCostLimit st conf.statisticsConf.costLimit)) ∧
    (∀ st, (mkExecutor conf s).stat = some st →
       st.costLimit = conf.statisticsConf.costLimit) := by
  refine ⟨?_, ?_, ?_⟩
  · rintro ⟨h1, h2, h3⟩
    simp [mkExecutor, statEnabled, h1, h2, h3]
  · rintro st rfl hEn
    simp [mkExecutor, hEn]
  · intro st hst
    simp only [mkExecutor, Option.map_eq_some'] at hst
    obtain ⟨st0, _, rfl⟩ := hst
    rfl

/-- Claim C10 witness: with all statistics switches disabled, a non-null
statistics argument is not attached; with instruction counting enabled it is
attached and its cost limit is taken from the configuration. -/
theorem c10_constructor_statistics_witness :
    (mkExecutor ⟨⟨false, false, false, 7⟩⟩ (some ⟨3, 0⟩)).stat = none ∧
    (mkExecutor ⟨⟨true, false, false, 7⟩⟩ (some ⟨3, 0⟩)).stat = some ⟨7, 0⟩ := by
  refine ⟨(c10_constructor_statistics ⟨⟨false, false, false, 7⟩⟩ (some ⟨3, 0⟩)).1
      ⟨rfl, rfl, rfl⟩, ?_⟩
  have h := (c10_constructor_statistics ⟨⟨true, false, false, 7⟩⟩
      (some ⟨3, 0⟩)).2.1 ⟨3, 0⟩ rfl rfl
  simpa [setCostLimit] using h

/-- Claim C2: whenever `memory.copy`, `memory.fill`, or `memory.init` traps,
the destination memory is returned unchanged: the full source and destination
ranges are validated before any byte write, so the pre-operation state is
observable after the trap. -/
theorem c2_bulk_memory_no_partial_mutation (dst src data : List Nat)
    (dstOff srcOff len val : Nat) :
    ((runMemoryCopyOp dst src dstOff srcOff len).1.isSome = true →
       (runMemoryCopyOp dst src dstOff srcOff len).2 = dst) ∧
    ((runMemoryFillOp dst dstOff val len).1.isSome = true →
       (runMemoryFillOp dst dstOff val len).2 = dst) ∧
    ((runMemoryInitOp dst data dstOff srcOff len).1.isSome = true →
       (runMemoryInitOp dst data dstOff srcOff len).2 = dst) := by
  refine ⟨?_, ?_, ?_⟩
  · exact fun h => runMemActions_checks_then_writes
      [decide (srcOff + len ≤ src.length), decide (dstOff + len ≤ dst.length)]
      (writeBytesActions dstOff ((src.drop srcOff).take len))
      (runMemActions_writes_fst _ _) dst h
  · exact fun h => runMemActions_checks_then_writes
      [decide (dstOff + len ≤ dst.length)]
      (writeBytesActions dstOff (List.replicate len val))
      (runMemActions_writes_fst _ _) dst h
  · exact fun h => runMemActions_checks_then_writes
      [decide (srcOff + len ≤ data.length), decide (dstOff + len ≤ dst.length)]
      (writeBytesActions dstOff ((data.drop srcOff).take len))
      (runMemActions_writes_fst _ _) dst h

/-- Claim C2 witness: copying 2 bytes out of a 1-byte source traps and the
1-byte destination is unchanged. -/
theorem c2_bulk_memory_no_partial_mutation_witness :
    (runMemoryCopyOp [3] [9] 0 0 2).1.isSome = true ∧
    (runMemoryCopyOp [3] [9] 0 0 2).2 = [3] :=
  ⟨by decide,
   (c2_bulk_memory_no_partial_mutation [3] [9] [] 0 0 2 0).1 (by decide)⟩

/-- Claim C3: `atomicWait` returns 1 without blocking when the loaded value
differs from `expected`; otherwise it blocks and returns 0 when woken by a
notify and 2 when the timeout expires, and a negative timeout (wait
indefinitely) rules out the timeout outcome. -/
theorem c3_atomic_wait_results (mem : List Nat) (addr expected : Nat)
    (timeout : Int) (outcome : WakeOutcome) :
    (mem.getD addr 0 ≠ expected →
       atomicWait mem addr expected timeout outcome = ⟨1, false⟩) ∧
    (mem.getD addr 0 = expected → outcome = .notified →
       atomicWait mem addr expected timeout outcome = ⟨0, true⟩) ∧
    (mem.getD addr 0 = expected → outcome = .timedOut →
       atomicWait mem addr expected timeout outcome = ⟨2, true⟩) ∧
    (timeout < 0 → wakeOutcomePossible timeout WakeOutcome.timedOut = false) := by
  refine ⟨?_, ?_, ?_, ?_⟩
  · intro h
    unfold atomicWait
    rw [if_pos h]
  · rintro h rfl
    unfold atomicWait
    rw [if_neg (not_not_intro h)]
  · rintro h rfl
    unfold atomicWait
    rw [if_neg (not_not_intro h)]
  · intro h
    simp only [wakeOutcomePossible, decide_eq_false_iff_not]
    omega

/-- Claim C3 witness: with the cell holding 5, waiting for 7 returns 1 without
blocking; waiting for 5 returns 0 on notify and 2 on timeout; a negative
timeout makes the timeout outcome impossible. -/
theorem c3_atomic_wait_results_witness :
    atomicWait [5] 0 7 0 WakeOutcome.notified = ⟨1, false⟩ ∧
    atomicWait [5] 0 5 0 WakeOutcome.notified = ⟨0, true⟩ ∧
    atomicWait [5] 0 5 0 WakeOutcome.timedOut = ⟨2, true⟩ ∧
    wakeOutcomePossible (-1) WakeOutcome.timedOut = false :=
  ⟨(c3_atomic_wait_results [5] 0 7 0 .notified).1 (by decide),
   (c3_atomic_wait_results [5] 0 5 0 .notified).2.1 (by decide) rfl,
   (c3_atomic_wait_results [5] 0 5 0 .timedOut).2.2.1 (by decide) rfl,
   (c3_atomic_wait_results [5] 0 5 (-1) .timedOut).2.2.2 (by decide)⟩

/-- Claim C4: `table.grow` returns the previous size when the growth fits the
maximum, appending the requested slots; when it would exceed the maximum it
returns `0xFFFFFFFF` and leaves the table's size and contents unchanged. -/
theorem c4_table_grow (tab : TableInstance) (val : RefV) (count : Nat) :
    (tab.refs.length + count ≤ tab.maxSize →
       (runTableGrowOp tab val count).1 = tab.refs.length ∧
       (runTableGrowOp tab val count).2.refs =
         tab.refs ++ List.replicate count val) ∧
    (tab.maxSize < tab.refs.length + count →
       (runTableGrowOp tab val count).1 = 4294967295 ∧
       (runTableGrowOp tab val count).2 = tab) := by
  constructor
  · intro h; simp [runTableGrowOp, h]
  · intro h
    have h' : ¬ tab.refs.length + count ≤ tab.maxSize := by omega
    simp [runTableGrowOp, h']

/-- Claim C4 witness: a 1-slot table with maximum 2 grows by 1 returning the
previous size 1; growing by 5 returns `0xFFFFFFFF` and keeps the table. -/
theorem c4_table_grow_witness :
    (runTableGrowOp ⟨[⟨0⟩], 2⟩ ⟨9⟩ 1).1 = 1 ∧
    (runTableGrowOp ⟨[⟨0⟩], 2⟩ ⟨9⟩ 1).2.refs = [⟨0⟩, ⟨9⟩] ∧
    (runTableGrowOp ⟨[⟨0⟩], 2⟩ ⟨9⟩ 5).1 = 4294967295 ∧
    (runTableGrowOp ⟨[⟨0⟩], 2⟩ ⟨9⟩ 5).2 = ⟨[⟨0⟩], 2⟩ := by
  refine ⟨((c4_table_grow ⟨[⟨0⟩], 2⟩ ⟨9⟩ 1).1 (by decide)).1, ?_,
    ((c4_table_grow ⟨[⟨0⟩], 2⟩ ⟨9⟩ 5).2 (by decide)).1,
    ((c4_table_grow ⟨[⟨0⟩], 2⟩ ⟨9⟩ 5).2 (by decide)).2⟩
  have h := ((c4_table_grow ⟨[⟨0⟩], 2⟩ ⟨9⟩ 1).1 (by decide)).2
  simpa using h

/-- Claim C6: `atomicNotify` on one memory instance leaves every waiter of a
different memory instance exactly as it was (so it is never woken), and the
returned count never exceeds the number of waiters registered for that
memory at that address (waiters of other memories are never counted). -/
theorem c6_notify_distinguishes_memories (wm : WaiterMap)
    (mem addr count : Nat) :
    List.Forall₂ (fun pOld pNew => pOld.2.memInst ≠ mem → pNew = pOld)
      wm (atomicNotify wm mem addr count).2 ∧
    (atomicNotify wm mem addr count).1 ≤ (matchingWaiters wm mem addr).length := by
  unfold atomicNotify
  induction wm generalizing count with
  | nil => exact ⟨List.Forall₂.nil, by simp [atomicNotifyGo, matchingWaiters]⟩
  | cons p rest ih =>
    obtain ⟨a, w⟩ := p
    by_cases hc : a = addr ∧ w.memInst = mem ∧ 0 < count
    · have h1 := (ih (count - 1)).1
      have h2 := (ih (count - 1)).2
      constructor
      · simp only [atomicNotifyGo, if_pos hc]
        exact List.Forall₂.cons (fun hne => absurd hc.2.1 hne) h1
      · simp only [atomicNotifyGo, if_pos hc]
        have hlen : (matchingWaiters ((a, w) :: rest) mem addr).length
            = (matchingWaiters rest mem addr).length + 1 := by
          simp [matchingWaiters, List.filter_cons, hc.1, hc.2.1]
        rw [hlen]
        omega
    · have h1 := (ih count).1
      have h2 := (ih count).2
      constructor
      · simp only [atomicNotifyGo, if_neg hc]
        exact List.Forall₂.cons (fun _ => rfl) h1
      · simp only [atomicNotifyGo, if_neg hc]
        have hle : (matchingWaiters rest mem addr).length
            ≤ (matchingWaiters ((a, w) :: rest) mem addr).length := by
          simp only [matchingWaiters, List.filter_cons]
          split
          · simp
          · exact Nat.le_refl _
        omega

/-- Claim C7: `stop()` stores 1 into `StopToken` with relaxed ordering and
then wakes every waiter registered in the waiter map via `atomicNotifyAll`;
afterwards `StopToken` is non-zero. -/
theorem c7_stop_sets_token_and_wakes_all (s : ExecutorState) :
    stopTrace = [StopEvent.storeStopToken 1 MemOrdering.relaxed,
      StopEvent.notifyAllWaiters] ∧
    (stop s).stopToken = 1 ∧
    (stop s).stopToken ≠ 0 ∧
    ((stop s).waiterMap.all fun p => p.2.woken) = true ∧
    (stop s).waiterMap.length = s.waiterMap.length := by
  refine ⟨rfl, rfl, Nat.one_ne_zero, ?_, ?_⟩
  · simp [stop, atomicNotifyAll, List.all_map, Function.comp]
  · simp [stop, atomicNotifyAll]

/-- Claim C8: for equal-width numeric types, reinterpreting from `t` to `u`
and back yields exactly the original bit pattern. -/
theorem c8_reinterpret_round_trip (t u : NumType) (x : Nat)
    (hw : bitWidth t = bitWidth u) (hx : x < 2 ^ bitWidth t) :
    runReinterpretOp u t (runReinterpretOp t u x) = x := by
  unfold runReinterpretOp
  rw [← hw, Nat.mod_eq_of_lt hx, Nat.mod_eq_of_lt hx]

/-- Claim C8 witness: the f32 bit pattern of pi survives the round trip
through i32. -/
theorem c8_reinterpret_round_trip_witness :
    runReinterpretOp NumType.i32 NumType.f32
      (runReinterpretOp NumType.f32 NumType.i32 1078530011) = 1078530011 :=
  c8_reinterpret_round_trip NumType.f32 NumType.i32 1078530011 rfl (by decide)

/-- Claim C9: recording the stack trace of an error-path call chain never
exceeds 256 frames, and exactly the first 256 call-chain frames are
recorded. -/
theorem c9_stack_trace_bounded (chain : List Nat) :
    (recordCallChain chain).length ≤ 256 ∧
    recordCallChain chain = chain.take 256 := by
  have h := recordStackTraceFrame_foldl chain [] (by simp)
  simp only [List.length_nil, Nat.sub_zero, List.nil_append] at h
  refine ⟨?_, h⟩
  rw [show recordCallChain chain = chain.foldl recordStackTraceFrame [] from rfl,
    h]
  simp [List.length_take]

end WasmEdge
